import Mathlib

/-!
Verification of the freeSound backend (SoundCloud downloader).

The definitions below are a shallow embedding of the Python source:
  - backend/utils/drm_detection.py   (DRM markers in URLs and content)
  - backend/utils/file_utils.py      (file-size validation)
  - backend/utils/metadata.py        (ID3 tag construction, MIME sniffing)
  - backend/soundcloud_client.py     (resolve retry loop, stream locator)
  - backend/downloader.py            (transcoder with retry, playlist ZIP
                                      packager with pending map and
                                      next-expected-index cursor)

Python strings are modelled as Lean String; the string scans performed by
the source (substring membership after lowercasing, whitespace splitting)
are implemented over the underlying character lists so that every
definition evaluates inside the kernel.  External effects (HTTP calls,
the ffmpeg process, the filesystem) are modelled by environment records
that fix each call's outcome, and the functions consume those records
exactly along the control-flow paths of the source.
-/

namespace FreeSound

/-! ### Character-list string helpers (Python semantics) -/

/-- Test whether the pattern is a prefix of the list, character by character. -/
def charsPre : List Char → List Char → Bool
  | [], _ => true
  | _ :: _, [] => false
  | a :: as, b :: bs => a == b && charsPre as bs

/-- Python substring membership: pat occurs contiguously inside hay. -/
def charsSub (pat : List Char) : List Char → Bool
  | [] => pat.isEmpty
  | c :: t => charsPre pat (c :: t) || charsSub pat t

/-- Python s.lower() (ASCII range, which covers every marker the source scans for). -/
def pyLower (s : String) : List Char := s.data.map Char.toLower

/-- Python "pat in s" on a lowercased string. -/
def containsSub (s : String) (pat : String) : Bool :=
  charsSub pat.data s.data

/-- Accumulator pass of Python str.split(): whitespace runs separate tokens,
no empty tokens are produced. -/
def splitWsAux : List Char → List Char → List (List Char)
  | [], cur => if cur.isEmpty then [] else [cur.reverse]
  | c :: t, cur =>
    if c.isWhitespace then
      if cur.isEmpty then splitWsAux t [] else cur.reverse :: splitWsAux t []
    else splitWsAux t (c :: cur)

/-- Python str.split() with no argument. -/
def pySplitWs (s : String) : List String :=
  (splitWsAux s.data []).map String.mk

/-! ### utils/constants.py -/

/-- MIN_FILE_SIZE = 10 * 1024 (constants.py). -/
def MIN_FILE_SIZE : Nat := 10 * 1024

/-- MAX_CONCURRENT_DOWNLOADS = 3 (constants.py). -/
def MAX_CONCURRENT_DOWNLOADS : Nat := 3

/-! ### utils/drm_detection.py -/

/-- The DRM error message produced by check_drm_in_content. -/
def DRM_CONTENT_MSG : String := "Track is DRM-protected (encrypted) and cannot be downloaded"

/-- is_drm_protected_url (drm_detection.py): lowercase the URL and look for
the cenc marker. -/
def is_drm_protected_url (url : String) : Bool :=
  let u := String.mk (pyLower url)
  containsSub u "cenc" || containsSub u "/cenc/"

/-- check_drm_in_content (drm_detection.py): scan lowercased content for the
three DRM indicator patterns; return the error message if one matches. -/
def check_drm_in_content (content : String) : Option String :=
  let c := String.mk (pyLower content)
  if containsSub c "cenc" || containsSub c "/cenc/" then some DRM_CONTENT_MSG
  else if containsSub c "not on whitelist" && containsSub c "https" then some DRM_CONTENT_MSG
  else if containsSub c "data:text" && containsSub c "wrmheader" then some DRM_CONTENT_MSG
  else none

/-! ### utils/file_utils.py -/

/-- validate_file_size (file_utils.py): the file must exist and its size must
be at least min_size.  Existence and size are supplied by the environment. -/
def validate_file_size (fileExistsOnDisk : Bool) (fileSize : Nat) (minSize : Nat) : Bool :=
  fileExistsOnDisk && decide (minSize ≤ fileSize)

/-! ### Transcoder: _download_with_ffmpeg and _retry_with_headers (downloader.py)

The environment fixes the outcome of every external interaction of one
transcode job: the first ffmpeg run, the manual manifest fetch of the retry,
the ffmpeg run of the retry, and the state of the output file at
validation time. -/

/-- Outcome of one ffmpeg invocation: its exit code and captured stderr. -/
structure FfmpegRun where
  exitCode : Int
  stderr : String
deriving Repr, DecidableEq

/-- Environment of one _download_with_ffmpeg call. -/
structure TranscodeEnv where
  m3u8Url : String
  firstRun : FfmpegRun
  manifestStatus : Nat
  manifestBody : String
  retryRun : FfmpegRun
  outputExistsOnDisk : Bool
  outputSize : Nat
deriving Repr, DecidableEq

/-- Result of _download_with_ffmpeg: True, False (file too small), or a raised
exception carrying its message. -/
inductive TranscodeResult where
  | ok : TranscodeResult
  | tooSmall : TranscodeResult
  | err : String → TranscodeResult
deriving Repr, DecidableEq

/-- _retry_with_headers (downloader.py lines 94-156).  Returns the boolean
result together with the number of ffmpeg invocations it performed.
Every exception raised inside the body, including the two DRM-indicator
exceptions, is caught by the blanket except clause and becomes False. -/
def retry_with_headers (env : TranscodeEnv) : Bool × Nat :=
  if env.manifestStatus ≠ 200 then (false, 0)
  else
    match check_drm_in_content env.manifestBody with
    | some _ => (false, 0)
    | none =>
      match check_drm_in_content env.retryRun.stderr with
      | some _ => (false, 1)
      | none => if env.retryRun.exitCode ≠ 0 then (false, 1) else (true, 1)

/-- _download_with_ffmpeg (downloader.py lines 40-92).  Returns the result
together with the total number of ffmpeg invocations.  The outer
except clause prefixes every raised message with Download failed. -/
def download_with_ffmpeg (env : TranscodeEnv) : TranscodeResult × Nat :=
  if is_drm_protected_url env.m3u8Url then
    (.err ("Download failed: " ++ DRM_CONTENT_MSG), 0)
  else
    match check_drm_in_content env.firstRun.stderr with
    | some msg => (.err ("Download failed: " ++ msg), 1)
    | none =>
      if env.firstRun.exitCode ≠ 0 then
        let r := retry_with_headers env
        if r.1 then
          if validate_file_size env.outputExistsOnDisk env.outputSize MIN_FILE_SIZE then
            (.ok, 1 + r.2)
          else (.tooSmall, 1 + r.2)
        else
          let errMsg := if env.firstRun.stderr = "" then "Unknown error" else env.firstRun.stderr
          (.err ("Download failed: FFmpeg conversion failed: " ++ errMsg), 1 + r.2)
      else
        if validate_file_size env.outputExistsOnDisk env.outputSize MIN_FILE_SIZE then
          (.ok, 1)
        else (.tooSmall, 1)

/-- Concrete transcode environment: encoder exits non-zero with a non-DRM
stderr, the manually fetched manifest carries the cenc DRM marker. -/
def drmManifestEnv : TranscodeEnv :=
  { m3u8Url := "https://cf-hls-media.example.com/playlist/abc.m3u8"
    firstRun := { exitCode := 1, stderr := "Server returned 403 Forbidden" }
    manifestStatus := 200
    manifestBody := "#EXTM3U #EXT-X-KEY:METHOD=AES-128,URI=skd://cenc"
    retryRun := { exitCode := 0, stderr := "" }
    outputExistsOnDisk := true
    outputSize := 20000 }

/-- Concrete transcode environment for a clean, successful transcode. -/
def cleanTranscodeEnv : TranscodeEnv :=
  { m3u8Url := "https://cf-hls-media.example.com/playlist/abc.m3u8"
    firstRun := { exitCode := 0, stderr := "" }
    manifestStatus := 200
    manifestBody := "#EXTM3U"
    retryRun := { exitCode := 0, stderr := "" }
    outputExistsOnDisk := true
    outputSize := 20000 }

/-! ### utils/metadata.py: add_metadata_to_mp3, _add_cover_art, _detect_image_mime

The mutagen tag store is external to the repository; it is modelled as a
record with one field per ID3 frame the source writes (tags.add with the
same frame class replaces the previous frame of that class, and _add_cover_art
deletes every APIC frame before adding the new one, so each field holds the
final frame content).  Image bytes are lists of byte values. -/

/-- _detect_image_mime (metadata.py lines 96-105): sniff PNG, GIF and JPEG
magic bytes; default to JPEG. -/
def detect_image_mime (imageData : List Nat) : String :=
  if [0x89, 0x50, 0x4E, 0x47].isPrefixOf imageData then "image/png"
  else if [0x47, 0x49, 0x46].isPrefixOf imageData then "image/gif"
  else if [0xFF, 0xD8].isPrefixOf imageData then "image/jpeg"
  else "image/jpeg"

/-- The ID3 frames written by the tagging code: TIT2 title, TPE1 artist,
TALB album, TRCK track number, TCON genre, APIC (mime, image bytes). -/
structure Mp3Tags where
  tit2 : Option String
  tpe1 : Option String
  talb : Option String
  trck : Option String
  tcon : Option String
  apic : Option (String × List Nat)
deriving Repr, DecidableEq

/-- A tag record with no frames. -/
def emptyMp3Tags : Mp3Tags := ⟨none, none, none, none, none, none⟩

/-- genre.split()[0] of the source, as an Option: Python raises IndexError
when the split of an all-whitespace string is empty. -/
def firstGenreToken (genre : String) : Option String :=
  (pySplitWs genre).head?

/-- _add_cover_art (metadata.py lines 65-93): delete existing APIC frames and
add one carrying the sniffed MIME and the image bytes. -/
def add_cover_art (tags : Mp3Tags) (coverArt : List Nat) : Mp3Tags :=
  { tags with apic := some (detect_image_mime coverArt, coverArt) }

/-- add_metadata_to_mp3 (metadata.py lines 9-62) acting on the modelled tag
record.  Python truthiness: an empty album or genre string, a zero track
number and empty cover bytes all skip their frame.  An all-whitespace genre
raises IndexError at genre.split()[0], which the function re-raises. -/
def add_metadata_to_mp3 (tags : Mp3Tags) (title artist : String)
    (album : Option String) (trackNumber : Option Nat) (genre : Option String)
    (coverArt : Option (List Nat)) : Except String Mp3Tags :=
  let t1 : Mp3Tags := { tags with tit2 := some title, tpe1 := some artist }
  let t2 : Mp3Tags :=
    match album with
    | some a => if a ≠ "" then { t1 with talb := some a } else t1
    | none => t1
  let t3 : Mp3Tags :=
    match trackNumber with
    | some n => if n ≠ 0 then { t2 with trck := some (toString n) } else t2
    | none => t2
  let withGenre : Except String Mp3Tags :=
    match genre with
    | some g =>
      if g ≠ "" then
        match firstGenreToken g with
        | some tok => .ok { t3 with tcon := some tok }
        | none => .error "Failed to add metadata: list index out of range"
      else .ok t3
    | none => .ok t3
  match withGenre with
  | .error e => .error e
  | .ok t4 =>
    match coverArt with
    | some d => if d ≠ [] then .ok (add_cover_art t4 d) else .ok t4
    | none => .ok t4

/-! ### soundcloud_client.py: resolve (lines 203-264)

The upstream endpoint's behaviour is an environment function from the
attempt number to a response; refreshOk fixes whether each
get_client_id(force_refresh=True) call succeeds. -/

/-- One upstream response of the resolve endpoint. -/
inductive UpstreamResp (A : Type) where
  | ok : A → UpstreamResp A
  | authRejected : String → UpstreamResp A
  | httpError : Nat → String → UpstreamResp A
  | transportError : String → UpstreamResp A

/-- Counters observed during one resolve call: upstream resolve requests
issued and client-id refreshes attempted after an auth rejection. -/
structure ResolveTrace where
  requests : Nat
  refreshes : Nat
deriving Repr, DecidableEq

/-- The 401 error message of resolve (soundcloud_client.py lines 248-254). -/
def auth401Msg (maxRetries : Nat) (body : String) : String :=
  "Failed to resolve URL: 401 Unauthorized - Invalid client_id. Tried " ++
    toString maxRetries ++ " times. " ++ body ++
    ". SoundCloud may have changed their API authentication. Please try again in a few moments."

/-- The retry loop of resolve (soundcloud_client.py lines 224-264).
remaining counts the iterations left of for attempt in range(max_retries);
on a 401 before the last attempt the client id is refreshed once, and a
failed refresh on the first attempt still retries with the stale id. -/
def resolveLoop {A : Type} (resp : Nat → UpstreamResp A) (refreshOk : Nat → Bool)
    (maxRetries : Nat) : Nat → Nat → ResolveTrace → Except String A × ResolveTrace
  | 0, _, tr => (.error "Failed to resolve URL after all retry attempts", tr)
  | remaining + 1, attempt, tr =>
    let tr1 : ResolveTrace := ⟨tr.requests + 1, tr.refreshes⟩
    match resp attempt with
    | .ok a => (.ok a, tr1)
    | .authRejected body =>
      if attempt < maxRetries - 1 then
        let tr2 : ResolveTrace := ⟨tr1.requests, tr1.refreshes + 1⟩
        if refreshOk tr1.refreshes then
          resolveLoop resp refreshOk maxRetries remaining (attempt + 1) tr2
        else if attempt = 0 then
          resolveLoop resp refreshOk maxRetries remaining (attempt + 1) tr2
        else (.error (auth401Msg maxRetries body), tr2)
      else (.error (auth401Msg maxRetries body), tr1)
    | .httpError code body =>
      (.error ("Failed to resolve URL: " ++ toString code ++ " - " ++ body), tr1)
    | .transportError msg => (.error ("Failed to resolve URL: " ++ msg), tr1)

/-- resolve (soundcloud_client.py): max_retries = 2, starting at attempt 0. -/
def resolve {A : Type} (resp : Nat → UpstreamResp A) (refreshOk : Nat → Bool) :
    Except String A × ResolveTrace :=
  resolveLoop resp refreshOk 2 2 0 ⟨0, 0⟩

/-! ### soundcloud_client.py: get_stream_url (lines 414-542)

One transcoding descriptor carries its url and the protocol declared in its
format field.  The signed-manifest fetch of a candidate is an environment
function from the candidate url to an outcome. -/

/-- One entry of media.transcodings. -/
structure Transcoding where
  url : String
  protocol : String
deriving Repr, DecidableEq

/-- Outcome of fetching one candidate's signed manifest URL. -/
inductive ManifestFetch where
  | httpError : String → ManifestFetch
  | noUrl : ManifestFetch
  | manifest : String → ManifestFetch

/-- Result of the candidate loop of get_stream_url. -/
inductive LocateLoopResult where
  | found : String → LocateLoopResult
  | exhausted : Option String → LocateLoopResult
deriving Repr, DecidableEq

/-- The DRM message set as last_error inside the loop (line 500) and raised
by get_stream_url. -/
def DRM_STREAM_MSG : String := "Track is DRM-protected and cannot be downloaded"

/-- Classification pass of get_stream_url (lines 442-451): keep transcodings
whose declared protocol contains hls or stream, and split them on whether
the lowercased url contains cenc. -/
def classifyTranscodings (tcs : List Transcoding) : List Transcoding × List Transcoding :=
  tcs.foldl
    (fun acc tc =>
      let p := String.mk (pyLower tc.protocol)
      let u := String.mk (pyLower tc.url)
      if containsSub p "hls" || containsSub p "stream" then
        if !(containsSub u "cenc") then (acc.1 ++ [tc], acc.2)
        else (acc.1, acc.2 ++ [tc])
      else acc)
    ([], [])

/-- The candidate loop of get_stream_url (lines 466-515), with CPython's
list-iteration semantics: the loop keeps an integer position into the list
object it iterates, and when the list being iterated is the very
non_drm_transcodings object (aliased = true, the non-empty non-DRM case),
non_drm_transcodings.remove(...) shifts the later elements down while the
position still advances.  fuel bounds the iteration count; the initial
list length suffices because every step either advances the position or
shortens the list. -/
def locateLoop (fetch : String → ManifestFetch) (aliased : Bool) :
    Nat → List Transcoding → Nat → Option String → LocateLoopResult
  | 0, _, _, lastErr => .exhausted lastErr
  | fuel + 1, l, i, lastErr =>
    match l[i]? with
    | none => .exhausted lastErr
    | some c =>
      if c.url = "" then locateLoop fetch aliased fuel l (i + 1) lastErr
      else
        match fetch c.url with
        | .httpError e => locateLoop fetch aliased fuel l (i + 1) (some e)
        | .noUrl => locateLoop fetch aliased fuel l (i + 1) lastErr
        | .manifest m =>
          if is_drm_protected_url m then
            if aliased then
              let l2 := l.erase c
              if l2.length ≠ 0 then locateLoop fetch aliased fuel l2 (i + 1) lastErr
              else locateLoop fetch aliased fuel l2 (i + 1) (some DRM_STREAM_MSG)
            else locateLoop fetch aliased fuel l (i + 1) (some DRM_STREAM_MSG)
          else .found m

/-- get_stream_url (soundcloud_client.py lines 414-542).  alt is the result
of _try_alternative_stream_url (None when it returned None or raised). -/
def get_stream_url (fetch : String → ManifestFetch) (alt : Option String)
    (tcs : List Transcoding) : Except String String :=
  if tcs.length = 0 then .error "No transcodings available for this track"
  else
    let cls := classifyTranscodings tcs
    let nonDrm := cls.1
    let drm := cls.2
    let toTry := if nonDrm.length ≠ 0 then nonDrm else drm
    if toTry.length = 0 then .error "No HLS transcodings available for this track"
    else
      match locateLoop fetch (nonDrm.length ≠ 0) toTry.length toTry 0 none with
      | .found m => .ok m
      | .exhausted lastErr =>
        match alt with
        | some m =>
          if !(is_drm_protected_url m) then .ok m
          else
            match lastErr with
            | some e =>
              if containsSub e "DRM-protected" then .error e
              else .error "Failed to get stream URL: All transcodings failed or are DRM-protected"
            | none => .error "Failed to get stream URL: No working transcodings found"
        | none =>
          match lastErr with
          | some e =>
            if containsSub e "DRM-protected" then .error e
            else .error "Failed to get stream URL: All transcodings failed or are DRM-protected"
          | none => .error "Failed to get stream URL: No working transcodings found"

/-- Concrete non-protected transcoding candidate A. -/
def tcA : Transcoding :=
  ⟨"https://api-v2.soundcloud.com/media/soundcloud:tracks:1/secretA/stream/hls", "hls"⟩

/-- Concrete non-protected transcoding candidate B. -/
def tcB : Transcoding :=
  ⟨"https://api-v2.soundcloud.com/media/soundcloud:tracks:1/secretB/stream/hls", "hls"⟩

/-- Concrete manifest-fetch environment: candidate A resolves to a
DRM-protected manifest URL, every other candidate to a clean one. -/
def fetchDrmThenClean (u : String) : ManifestFetch :=
  if u = tcA.url then .manifest "https://cf-hls-media.sndcdn.com/drm/cenc/playlist.m3u8"
  else .manifest "https://cf-hls-media.sndcdn.com/clean/playlist.m3u8"

/-! ### downloader.py: download_track (lines 180-215) and download_playlist
(lines 336-379)

Only the format guard and the position of the first network operations
matter here; the environment fixes the outcome of each downstream call and
the model counts the network operations it performs. -/

/-- Errors of the download entry points: the bare ValueError raised before
the try block, or an exception wrapped inside it. -/
inductive DownloadErr where
  | valueError : String → DownloadErr
  | wrapped : String → DownloadErr
deriving Repr, DecidableEq

/-- Environment of one download_track call. -/
structure TrackDlEnv where
  resolveOutcome : Except String Unit
  streamOutcome : Except String String

/-- download_track (downloader.py lines 180-215): the format guard raises
ValueError before the try block performs any resolution or network work.
The second component counts upstream operations performed. -/
def download_track (format : String) (env : TrackDlEnv) : Except DownloadErr Unit × Nat :=
  if format ≠ "mp3" then (.error (.valueError "Only MP3 format is supported"), 0)
  else
    match env.resolveOutcome with
    | .error e => (.error (.wrapped ("Track download failed: " ++ e)), 1)
    | .ok _ =>
      match env.streamOutcome with
      | .error e => (.error (.wrapped ("Track download failed: " ++ e)), 2)
      | .ok _ => (.ok (), 2)

/-- Environment of one download_playlist call. -/
structure PlaylistDlEnv where
  infoOutcome : Except String Unit
  resolveOutcome : Except String Unit
  trackCount : Nat

/-- download_playlist (downloader.py lines 336-379): the format guard raises
ValueError before get_info, resolve and the batch lookup run.  The second
component counts upstream operations performed. -/
def download_playlist (format : String) (env : PlaylistDlEnv) :
    Except DownloadErr Unit × Nat :=
  if format ≠ "mp3" then (.error (.valueError "Only MP3 format is supported"), 0)
  else
    match env.infoOutcome with
    | .error e => (.error (.wrapped ("Playlist download failed: " ++ e)), 1)
    | .ok _ =>
      match env.resolveOutcome with
      | .error e => (.error (.wrapped ("Playlist download failed: " ++ e)), 2)
      | .ok _ =>
        if env.trackCount = 0 then
          (.error (.wrapped "Playlist download failed: No tracks found in playlist/album"), 2)
        else (.ok (), 3)

/-! ### downloader.py: the collection packager _stream_playlist_zip
(lines 381-495)

The packager consumes per-item task completions in completion order.  Each
completion is None (the item was skipped) or some (index, entry); the entry
stands for the (filename, track_bytes) pair.  Non-None completions go into
the pending map completed_tracks, and the contiguous drain writes pending
entries to the archive while the next-expected index is present. -/

/-- The mutable state of the packager loop: the pending map
completed_tracks (association list keyed by track index, most recent
insertion first), the next_expected_idx cursor, and the archive entries
written so far in write order. -/
structure ZipState (E : Type) where
  pending : List (Nat × E)
  nextExpected : Nat
  written : List (Nat × E)
deriving Repr, DecidableEq

/-- Python dict membership-and-read on the pending map: the value stored
under key j, if present. -/
def dictLookup {E : Type} (j : Nat) : List (Nat × E) → Option E
  | [] => none
  | (k, v) :: t => if j = k then some v else dictLookup j t

/-- Python dict.pop(j) on the pending map: drop the entry stored under
key j. -/
def dictPop {E : Type} (j : Nat) : List (Nat × E) → List (Nat × E)
  | [] => []
  | (k, v) :: t => if j = k then t else (k, v) :: dictPop j t

/-- The contiguous drain (downloader.py lines 450-470): while the
next-expected index is in the pending map, pop it, append it to the archive
and advance the cursor.  fuel bounds the iteration count; the pending map
length suffices because every iteration removes one entry. -/
def drainLoop {E : Type} : Nat → List (Nat × E) → Nat → List (Nat × E) → ZipState E
  | 0, pending, next, written => ⟨pending, next, written⟩
  | fuel + 1, pending, next, written =>
    match dictLookup next pending with
    | none => ⟨pending, next, written⟩
    | some e => drainLoop fuel (dictPop next pending) (next + 1) (written ++ [(next, e)])

/-- Handling of one completed task (downloader.py lines 442-474): a None
result leaves the state unchanged; a non-None result is stored in the
pending map by its original index and the drain runs. -/
def processEvent {E : Type} (s : ZipState E) (r : Option (Nat × E)) : ZipState E :=
  match r with
  | none => s
  | some (i, e) =>
    let pending := (i, e) :: s.pending
    drainLoop pending.length pending s.nextExpected s.written

/-- The completion-consumption loop of _stream_playlist_zip, folded over the
task completions in completion order, starting from an empty pending map,
cursor 0 and an empty archive. -/
def runPackager {E : Type} (events : List (Option (Nat × E))) : ZipState E :=
  events.foldl processEvent ⟨[], 0, []⟩

/-- _stream_playlist_zip (downloader.py lines 381-495) at the level of
archive entries: run the packager loop over the completions; after the final
flush, raise when tracks_added (the number of archive entries written, one
per writestr call) is zero, otherwise the archive holds the written entries
in write order.  Bytes are emitted to the caller exactly once per written
entry plus one final central-directory chunk, so an error result means no
entry bytes were emitted. -/
def stream_playlist_zip {E : Type} (events : List (Option (Nat × E))) :
    Except String (List (Nat × E)) :=
  let s := runPackager events
  if s.written.length = 0 then .error "No tracks were successfully downloaded"
  else .ok s.written

/-! ### downloader.py: temporary-file hygiene (claim C9)

_download_track_to_memory (lines 497-585) and _stream_playlist_zip
(lines 389, 492-495) both create one named temporary file and delete it in
a finally block.  The model walks the same control-flow paths as the
source, tracking whether the temporary file exists, and applies the
finally-block deletion on every exit path. -/

/-- The finally-block cleanup pattern of the source: if the file exists,
unlink it; afterwards it does not exist. -/
def finallyUnlink (fileOnDisk : Bool) : Bool :=
  if fileOnDisk then false else fileOnDisk

/-- Outcome of one _download_with_ffmpeg call as seen by its caller. -/
inductive DlOutcome where
  | raises : DlOutcome
  | badFile : DlOutcome
  | ok : DlOutcome
deriving Repr, DecidableEq

/-- Environment of one _download_track_to_memory call. -/
structure AssembleEnv where
  haveTrackId : Bool
  haveTrackUrl : Bool
  streamOk : Bool
  streamDrm : Bool
  firstDl : DlOutcome
  retryDl : DlOutcome
  attachMetadata : Bool
  metadataRaises : Bool
deriving Repr, DecidableEq

/-- The metadata-attachment tail of _download_track_to_memory (lines
557-580), entered with the temp file on disk. -/
def assembleTail (env : AssembleEnv) : Except Unit (Option Unit) × Bool :=
  if env.attachMetadata then
    if env.metadataRaises then (.error (), true) else (.ok (some ()), true)
  else (.ok (some ()), true)

/-- _download_track_to_memory (downloader.py lines 497-585).  The boolean is
whether the per-item temporary output file still exists when the call
returns; the except value models a propagating exception and .ok none the
skip result.  Every path through the try body runs the finally-block
deletion (lines 582-585). -/
def download_track_to_memory (env : AssembleEnv) : Except Unit (Option Unit) × Bool :=
  if !env.haveTrackId then (.ok none, false)
  else if !env.haveTrackUrl then (.ok none, false)
  else if !env.streamOk then (.ok none, false)
  else if env.streamDrm then (.ok none, false)
  else
    let body : Except Unit (Option Unit) × Bool :=
      match env.firstDl with
      | .raises => (.error (), true)
      | .badFile =>
        match env.retryDl with
        | .raises => (.error (), true)
        | .badFile => (.ok none, true)
        | .ok => assembleTail env
      | .ok => assembleTail env
    (body.1, finallyUnlink body.2)

/-- _stream_playlist_zip with its backing-archive temporary file: the file
is created up front and the finally block (lines 492-495) deletes it on the
error exit as well as after the final chunk. -/
def stream_playlist_zip_cleanup {E : Type} (events : List (Option (Nat × E))) :
    Except String (List (Nat × E)) × Bool :=
  let r := stream_playlist_zip events
  (r, finallyUnlink true)

/-! ### Specification predicates for the packager proof -/

/-- The pending map faithfully represents the finite set P of buffered
indices, every index mapped to its entry: keys are distinct, lookups agree
with membership in P, and the map is no larger than P. -/
def PendingRep {E : Type} (entry : Nat → E) (P : Finset ℕ) (l : List (Nat × E)) : Prop :=
  (l.map Prod.fst).Nodup ∧
  (∀ j, dictLookup j l = if j ∈ P then some (entry j) else none) ∧
  l.length = P.card

/-- Loop invariant of the packager over the set S of task completions
consumed so far, when every task at index j completes with entry j: the
pending map holds exactly the consumed indices at or above the cursor, every
index below the cursor has been consumed, the cursor itself is not yet
consumed, and the archive holds exactly the entries of indices below the
cursor in increasing index order. -/
def PackInv {E : Type} (entry : Nat → E) (S : Finset ℕ) (s : ZipState E) : Prop :=
  PendingRep entry (S.filter (fun j => s.nextExpected ≤ j)) s.pending ∧
  (∀ j, j < s.nextExpected → j ∈ S) ∧
  s.nextExpected ∉ S ∧
  s.written = (List.range s.nextExpected).map (fun j => (j, entry j))

/-! ## Theorems -/

/-! ### Dictionary helper lemmas -/

theorem dictLookup_eq_none_iff {E : Type} (l : List (Nat × E)) (j : Nat) :
    dictLookup j l = none ↔ j ∉ l.map Prod.fst := by
  induction l with
  | nil => simp [dictLookup]
  | cons p t ih =>
    obtain ⟨k, v⟩ := p
    by_cases h : j = k
    · subst h
      simp [dictLookup]
    · simp [dictLookup, h, ih]

theorem dictPop_sublist {E : Type} (i : Nat) (l : List (Nat × E)) :
    (dictPop i l).Sublist l := by
  induction l with
  | nil => simp [dictPop]
  | cons p t ih =>
    obtain ⟨k, v⟩ := p
    by_cases h : i = k
    · simp [dictPop, h]
    · simpa [dictPop, h] using ih.cons₂ (k, v)

theorem dictPop_lookup {E : Type} (l : List (Nat × E))
    (hnd : (l.map Prod.fst).Nodup) (i j : Nat) :
    dictLookup j (dictPop i l) = if j = i then none else dictLookup j l := by
  induction l with
  | nil => simp [dictPop, dictLookup]
  | cons p t ih =>
    obtain ⟨k, v⟩ := p
    simp only [List.map_cons, List.nodup_cons] at hnd
    by_cases hik : i = k
    · subst hik
      by_cases hji : j = i
      · subst hji
        simp [dictPop, (dictLookup_eq_none_iff t j).2 hnd.1]
      · simp [dictPop, dictLookup, hji]
    · by_cases hjk : j = k
      · subst hjk
        have hji : ¬ j = i := fun h => hik h.symm
        simp [dictPop, dictLookup, hik, hji]
      · simp [dictPop, dictLookup, hik, hjk, ih hnd.2]

theorem dictPop_length {E : Type} (l : List (Nat × E)) (i : Nat) (v : E)
    (h : dictLookup i l = some v) : (dictPop i l).length + 1 = l.length := by
  induction l with
  | nil => simp [dictLookup] at h
  | cons p t ih =>
    obtain ⟨k, w⟩ := p
    by_cases hik : i = k
    · simp [dictPop, hik]
    · simp only [dictLookup, hik, if_false] at h
      simp [dictPop, hik, ih h]

/-! ### The contiguous drain meets its specification -/

theorem drainLoop_spec {E : Type} (entry : Nat → E) :
    ∀ (fuel : Nat) (P : Finset ℕ) (l : List (Nat × E)) (next : Nat) (written : List (Nat × E)),
      PendingRep entry P l → P.card ≤ fuel →
      ∃ k,
        (∀ t, t < k → next + t ∈ P) ∧
        next + k ∉ P ∧
        PendingRep entry (P \ Finset.Ico next (next + k)) (drainLoop fuel l next written).pending ∧
        (drainLoop fuel l next written).nextExpected = next + k ∧
        (drainLoop fuel l next written).written =
          written ++ (List.range' next k).map (fun j => (j, entry j)) := by
  intro fuel
  induction fuel with
  | zero =>
    intro P l next written hrep hcard
    have hP : P = ∅ := Finset.card_eq_zero.1 (Nat.le_zero.1 hcard)
    subst hP
    refine ⟨0, ?_, ?_, ?_, ?_, ?_⟩
    · intro t ht; omega
    · simp
    · simpa [drainLoop] using hrep
    · simp [drainLoop]
    · simp [drainLoop, List.range']
  | succ fuel ih =>
    intro P l next written hrep hcard
    obtain ⟨hnd, hlook, hlen⟩ := hrep
    by_cases hmem : next ∈ P
    · have hlookNext : dictLookup next l = some (entry next) := by
        rw [hlook next, if_pos hmem]
      have hstep :
          drainLoop (fuel + 1) l next written =
            drainLoop fuel (dictPop next l) (next + 1) (written ++ [(next, entry next)]) := by
        simp [drainLoop, hlookNext]
      have hrep2 : PendingRep entry (P.erase next) (dictPop next l) := by
        refine ⟨((dictPop_sublist next l).map Prod.fst).nodup hnd, ?_, ?_⟩
        · intro j
          rw [dictPop_lookup l hnd next j]
          by_cases hji : j = next
          · subst hji
            simp
          · simp only [hji, if_false, hlook j, Finset.mem_erase, ne_eq, hji, not_false_iff,
              true_and]
        · have := dictPop_length l next (entry next) hlookNext
          have hc := Finset.card_erase_of_mem hmem
          omega
      have hcard2 : (P.erase next).card ≤ fuel := by
        have hc := Finset.card_erase_of_mem hmem
        have hpos : 0 < P.card := Finset.card_pos.2 ⟨next, hmem⟩
        omega
      obtain ⟨k, hrun, hstop, hrepf, hnextf, hwrittenf⟩ :=
        ih (P.erase next) (dictPop next l) (next + 1) (written ++ [(next, entry next)])
          hrep2 hcard2
      refine ⟨k + 1, ?_, ?_, ?_, ?_, ?_⟩
      · intro t ht
        rcases Nat.eq_zero_or_pos t with ht0 | htpos
        · subst ht0; simpa using hmem
        · obtain ⟨s, rfl⟩ := Nat.exists_eq_add_of_le htpos
          have hs : s < k := by omega
          have := hrun s hs
          have hmem2 := (Finset.mem_erase.1 (by
            have : next + 1 + s ∈ P.erase next := hrun s hs
            exact this)).2
          have harith : next + (1 + s) = next + 1 + s := by omega
          rw [harith]
          exact hmem2
      · intro hcon
        have hne : next + (k + 1) ≠ next := by omega
        have : next + 1 + k ∈ P.erase next :=
          Finset.mem_erase.2 ⟨by omega, by have harith : next + 1 + k = next + (k + 1) := by omega
                                           rw [harith]; exact hcon⟩
        exact hstop this
      · have hset : P.erase next \ Finset.Ico (next + 1) (next + 1 + k) =
            P \ Finset.Ico next (next + (k + 1)) := by
          ext j
          simp only [Finset.mem_sdiff, Finset.mem_erase, Finset.mem_Ico, ne_eq]
          constructor
          · rintro ⟨⟨hjne, hjP⟩, hnotin⟩
            refine ⟨hjP, ?_⟩
            intro ⟨h1, h2⟩
            rcases Nat.lt_or_ge j (next + 1) with hlt | hge
            · exact hjne (by omega)
            · exact hnotin ⟨hge, by omega⟩
          · rintro ⟨hjP, hnotin⟩
            refine ⟨⟨?_, hjP⟩, ?_⟩
            · intro hj; exact hnotin (by omega)
            · intro ⟨h1, h2⟩; exact hnotin (by omega)
        rw [hstep]
        rw [← hset]
        exact hrepf
      · rw [hstep, hnextf]; omega
      · rw [hstep, hwrittenf]
        have hr : List.range' next (k + 1) = next :: List.range' (next + 1) k :=
          List.range'_succ next k 1
        rw [hr]
        simp
    · have hlookNext : dictLookup next l = none := by
        rw [hlook next, if_neg hmem]
      have hstep : drainLoop (fuel + 1) l next written = ⟨l, next, written⟩ := by
        simp [drainLoop, hlookNext]
      refine ⟨0, ?_, ?_, ?_, ?_, ?_⟩
      · intro t ht; omega
      · simpa using hmem
      · rw [hstep]
        simpa [Finset.Ico_self] using ⟨hnd, hlook, hlen⟩
      · simp [hstep]
      · simp [hstep, List.range']

/-! ### One completed task preserves the packager invariant -/

theorem processEvent_inv {E : Type} (entry : Nat → E) (S : Finset ℕ) (s : ZipState E)
    (i : Nat) (hInv : PackInv entry S s) (hi : i ∉ S) :
    PackInv entry (insert i S) (processEvent s (some (i, entry i))) := by
  obtain ⟨⟨hnd, hlook, hlen⟩, hlt, hnm, hw⟩ := hInv
  set next := s.nextExpected with hnext
  have hni : next ≤ i := by
    by_contra hcon
    exact hi (hlt i (by omega))
  have hkeys : i ∉ s.pending.map Prod.fst := by
    refine (dictLookup_eq_none_iff s.pending i).1 ?_
    rw [hlook i, if_neg]
    simp only [Finset.mem_filter]
    exact fun h => hi h.1
  have hiP : i ∉ S.filter (fun j => next ≤ j) := by
    simp only [Finset.mem_filter]
    exact fun h => hi h.1
  have hrep0 : PendingRep entry (insert i (S.filter (fun j => next ≤ j)))
      ((i, entry i) :: s.pending) := by
    refine ⟨?_, ?_, ?_⟩
    · rw [List.map_cons]
      exact List.nodup_cons.2 ⟨hkeys, hnd⟩
    · intro j
      by_cases hji : j = i
      · subst hji
        simp [dictLookup]
      · simp [dictLookup, hji, hlook j]
    · simp [hlen, Finset.card_insert_of_not_mem hiP]
  have hP0 : insert i (S.filter (fun j => next ≤ j)) =
      (insert i S).filter (fun j => next ≤ j) := by
    ext j
    simp only [Finset.mem_insert, Finset.mem_filter]
    constructor
    · rintro (rfl | ⟨hjS, hj⟩)
      · exact ⟨Or.inl rfl, hni⟩
      · exact ⟨Or.inr hjS, hj⟩
    · rintro ⟨rfl | hjS, hj⟩
      · exact Or.inl rfl
      · exact Or.inr ⟨hjS, hj⟩
  have hstep : processEvent s (some (i, entry i)) =
      drainLoop ((i, entry i) :: s.pending).length ((i, entry i) :: s.pending) next s.written := by
    simp [processEvent]
  rw [hP0] at hrep0
  have hcard : ((insert i S).filter (fun j => next ≤ j)).card ≤
      ((i, entry i) :: s.pending).length := by
    rw [hrep0.2.2]
  obtain ⟨k, hrun, hstop, hrepf, hnextf, hwrittenf⟩ :=
    drainLoop_spec entry ((i, entry i) :: s.pending).length
      ((insert i S).filter (fun j => next ≤ j)) ((i, entry i) :: s.pending) next s.written
      hrep0 hcard
  rw [hstep]
  refine ⟨?_, ?_, ?_, ?_⟩
  · rw [hnextf]
    have hset : (insert i S).filter (fun j => next ≤ j) \ Finset.Ico next (next + k) =
        (insert i S).filter (fun j => next + k ≤ j) := by
      ext j
      simp only [Finset.mem_sdiff, Finset.mem_filter, Finset.mem_Ico]
      constructor
      · rintro ⟨⟨hjS, hj⟩, hnotin⟩
        refine ⟨hjS, ?_⟩
        by_contra hcon
        exact hnotin ⟨hj, by omega⟩
      · rintro ⟨hjS, hj⟩
        exact ⟨⟨hjS, by omega⟩, fun h => by omega⟩
    rw [← hset]
    exact hrepf
  · intro j hj
    rw [hnextf] at hj
    rcases Nat.lt_or_ge j next with hjn | hjn
    · exact Finset.mem_insert_of_mem (hlt j hjn)
    · have ht : j - next < k := by omega
      have := hrun (j - next) ht
      have harith : next + (j - next) = j := by omega
      rw [harith] at this
      exact (Finset.mem_filter.1 this).1
  · rw [hnextf]
    intro hcon
    exact hstop (Finset.mem_filter.2 ⟨hcon, by omega⟩)
  · rw [hwrittenf, hnextf, hw]
    rw [List.range_add, List.range'_eq_map_range]
    simp [List.map_map, Function.comp]

/-! ### Folding the completion sequence preserves the invariant -/

theorem foldl_processEvent_inv {E : Type} (entry : Nat → E) :
    ∀ (order : List ℕ) (S : Finset ℕ) (s : ZipState E),
      PackInv entry S s → (∀ i ∈ order, i ∉ S) → order.Nodup →
      PackInv entry (S ∪ order.toFinset)
        (List.foldl processEvent s (order.map (fun i => some (i, entry i)))) := by
  intro order
  induction order with
  | nil =>
    intro S s hInv _ _
    simpa using hInv
  | cons i rest ih =>
    intro S s hInv hfresh hnd
    simp only [List.map_cons, List.foldl_cons]
    have hInv2 : PackInv entry (insert i S) (processEvent s (some (i, entry i))) :=
      processEvent_inv entry S s i hInv (hfresh i (List.mem_cons_self i rest))
    simp only [List.nodup_cons] at hnd
    have hfresh2 : ∀ j ∈ rest, j ∉ insert i S := by
      intro j hj
      simp only [Finset.mem_insert]
      rintro (rfl | hjS)
      · exact hnd.1 hj
      · exact hfresh j (List.mem_cons_of_mem i hj) hjS
    have := ih (insert i S) (processEvent s (some (i, entry i))) hInv2 hfresh2 hnd.2
    have hset : insert i S ∪ rest.toFinset = S ∪ (i :: rest).toFinset := by
      ext j
      simp only [Finset.mem_union, Finset.mem_insert, List.toFinset_cons, List.mem_toFinset]
      tauto
    rwa [hset] at this

/-! ### The packager invariant holds at the start -/

theorem packInv_init {E : Type} (entry : Nat → E) :
    PackInv entry ∅ (⟨[], 0, []⟩ : ZipState E) := by
  refine ⟨⟨?_, ?_, ?_⟩, ?_, ?_, ?_⟩
  · simp
  · intro j; simp [dictLookup]
  · simp
  · intro j hj; simp at hj
  · simp
  · simp

/-- C1: for every collection of N tracks (N at least 1) and every completion
order that is a permutation of the submission order, with every track
completing successfully, the archive entries written by the collection
packager are exactly the resolved entries 0..N-1 in the original resolved
track order (so an entry of index i is written only after every entry of
smaller index), the next-expected-index cursor ends at N and the pending map
ends empty. -/
theorem collection_archive_in_resolved_order {E : Type} (entry : Nat → E) (N : Nat)
    (hN : 1 ≤ N) (order : List ℕ) (hperm : order.Perm (List.range N)) :
    (runPackager (order.map (fun i => some (i, entry i)))).written =
      (List.range N).map (fun j => (j, entry j)) ∧
    (runPackager (order.map (fun i => some (i, entry i)))).nextExpected = N ∧
    (runPackager (order.map (fun i => some (i, entry i)))).pending = [] ∧
    stream_playlist_zip (order.map (fun i => some (i, entry i))) =
      .ok ((List.range N).map (fun j => (j, entry j))) := by
  have hnd : order.Nodup := hperm.nodup_iff.2 (List.nodup_range N)
  have hfin : order.toFinset = Finset.range N := by
    ext a
    simp [List.mem_toFinset, hperm.mem_iff, List.mem_range]
  have hInv := foldl_processEvent_inv entry order ∅ ⟨[], 0, []⟩ (packInv_init entry)
    (by intro i _; simp) hnd
  rw [Finset.empty_union, hfin] at hInv
  have hrun : runPackager (order.map (fun i => some (i, entry i))) =
      List.foldl processEvent ⟨[], 0, []⟩ (order.map (fun i => some (i, entry i))) := rfl
  rw [← hrun] at hInv
  obtain ⟨hrep, hlt, hnm, hw⟩ := hInv
  have hnextN : (runPackager (order.map (fun i => some (i, entry i)))).nextExpected = N := by
    have h1 : ¬ (runPackager (order.map (fun i => some (i, entry i)))).nextExpected < N :=
      fun h => hnm (Finset.mem_range.2 h)
    have h2 : ¬ N < (runPackager (order.map (fun i => some (i, entry i)))).nextExpected :=
      fun h => absurd (Finset.mem_range.1 (hlt N h)) (lt_irrefl N)
    omega
  have hwritten : (runPackager (order.map (fun i => some (i, entry i)))).written =
      (List.range N).map (fun j => (j, entry j)) := by
    rw [hw, hnextN]
  have hpend : (runPackager (order.map (fun i => some (i, entry i)))).pending = [] := by
    have hempty : (Finset.range N).filter
        (fun j => (runPackager (order.map (fun i => some (i, entry i)))).nextExpected ≤ j) = ∅ := by
      ext j
      simp only [Finset.mem_filter, Finset.mem_range, Finset.not_mem_empty, iff_false, hnextN]
      omega
    have hlen := hrep.2.2
    rw [hempty] at hlen
    simp only [Finset.card_empty] at hlen
    exact List.length_eq_zero.1 hlen
  refine ⟨hwritten, hnextN, hpend, ?_⟩
  have hlenN : (runPackager (order.map (fun i => some (i, entry i)))).written.length = N := by
    rw [hwritten]
    simp
  simp only [stream_playlist_zip, hwritten]
  rw [if_neg (by simp only [List.length_map, List.length_range]; omega)]

/-- Witness for C1: three tracks completing in the order 2, 0, 1 are
archived as entries 0, 1, 2. -/
theorem collection_archive_in_resolved_order_witness :
    1 ≤ 3 ∧ ([2, 0, 1] : List ℕ).Perm (List.range 3) ∧
    stream_playlist_zip (([2, 0, 1] : List ℕ).map (fun i => some (i, 10 * i))) =
      .ok ((List.range 3).map (fun j => (j, 10 * j))) :=
  ⟨by decide, by decide,
    (collection_archive_in_resolved_order (fun i => 10 * i) 3 (by decide) [2, 0, 1]
      (by decide)).2.2.2⟩

/-- C2 fails on the code: in a 3-track collection where the track of index 1
is skipped (DRM) and tracks 0 and 2 succeed, the drain cursor parks at index
1 forever, so the archive receives only entry 0 rather than the claimed
N - 1 = 2 entries; and when the skipped track is the first one, every
successful later track is also lost and the whole operation raises
NoItemsSucceeded even though one item succeeded. -/
theorem skipped_item_blocks_drain :
    stream_playlist_zip [some (0, 10), (none : Option (Nat × Nat)), some (2, 30)] =
      .ok [(0, 10)] ∧
    (runPackager [some (0, 10), (none : Option (Nat × Nat)), some (2, 30)]).written.length =
      1 ∧
    (runPackager [some (0, 10), (none : Option (Nat × Nat)), some (2, 30)]).pending =
      [(2, 30)] ∧
    stream_playlist_zip [(none : Option (Nat × Nat)), some (1, 20)] =
      .error "No tracks were successfully downloaded" :=
  ⟨rfl, by decide, by decide, rfl⟩

/-- C7: when every item of the collection fails, the packager writes no
archive entries (so nothing beyond the empty archive shell is emitted) and
the operation fails with the NoItemsSucceeded error. -/
theorem all_items_failed_raises {E : Type} (events : List (Option (Nat × E)))
    (h : ∀ e ∈ events, e = none) :
    runPackager events = ⟨[], 0, []⟩ ∧
    stream_playlist_zip events = .error "No tracks were successfully downloaded" := by
  have hfold : ∀ (l : List (Option (Nat × E))) (s : ZipState E), (∀ e ∈ l, e = none) →
      List.foldl processEvent s l = s := by
    intro l
    induction l with
    | nil => intro s _; rfl
    | cons e t iht =>
      intro s hall
      have he : e = none := hall e (List.mem_cons_self e t)
      subst he
      simp only [List.foldl_cons]
      exact iht s (fun x hx => hall x (List.mem_cons_of_mem none hx))
  have hrun : runPackager events = ⟨[], 0, []⟩ := hfold events ⟨[], 0, []⟩ h
  refine ⟨hrun, ?_⟩
  unfold stream_playlist_zip
  rw [hrun]
  simp

/-- Witness for C7: two failed items produce the NoItemsSucceeded error. -/
theorem all_items_failed_raises_witness :
    (∀ e ∈ [(none : Option (Nat × Nat)), none], e = none) ∧
    stream_playlist_zip [(none : Option (Nat × Nat)), none] =
      .error "No tracks were successfully downloaded" :=
  ⟨by decide, (all_items_failed_raises [none, none] (by decide)).2⟩

/-! ### Transcoder claims -/

theorem retry_with_headers_le_one (env : TranscodeEnv) : (retry_with_headers env).2 ≤ 1 := by
  unfold retry_with_headers
  by_cases h1 : env.manifestStatus ≠ 200
  · simp [h1]
  · cases h2 : check_drm_in_content env.manifestBody <;>
      cases h3 : check_drm_in_content env.retryRun.stderr <;>
      by_cases h4 : env.retryRun.exitCode ≠ 0 <;>
      simp [h1, h2, h3, h4]

/-- C3 counterexample: when the encoder exits non-zero without a DRM
indicator on stderr and the manually fetched manifest body carries a DRM
indicator, the job does not fail with the DRM-specific error: the DRM
exception is swallowed inside _retry_with_headers and the job fails with the
generic FFmpeg conversion failure built from the first run's stderr. -/
theorem retry_drm_error_swallowed :
    check_drm_in_content drmManifestEnv.manifestBody = some DRM_CONTENT_MSG ∧
    download_with_ffmpeg drmManifestEnv =
      (.err "Download failed: FFmpeg conversion failed: Server returned 403 Forbidden", 1) ∧
    containsSub "Download failed: FFmpeg conversion failed: Server returned 403 Forbidden"
      "DRM-protected" = false :=
  ⟨by decide, by decide, by decide⟩

/-- C3 (amended): when the encoder exits non-zero without a DRM indicator on
stderr, the transcoder performs exactly one retry that fetches the manifest
manually and never invokes the encoder more than twice in total; if the
fetched manifest body carries a DRM indicator, the retry aborts without
re-invoking the encoder and the job fails immediately, but the failure is
surfaced as the generic FFmpeg conversion failure (the retry helper swallows
the DRM-specific error), with exactly one encoder invocation performed. -/
theorem retry_after_nonzero_exit (env : TranscodeEnv)
    (hd : is_drm_protected_url env.m3u8Url = false)
    (hc : check_drm_in_content env.firstRun.stderr = none)
    (he : env.firstRun.exitCode ≠ 0) :
    (download_with_ffmpeg env).2 ≤ 2 ∧
    (env.manifestStatus = 200 → ∀ m, check_drm_in_content env.manifestBody = some m →
      download_with_ffmpeg env =
        (.err ("Download failed: FFmpeg conversion failed: " ++
          (if env.firstRun.stderr = "" then "Unknown error" else env.firstRun.stderr)), 1)) := by
  constructor
  · have hr := retry_with_headers_le_one env
    rcases hrv : retry_with_headers env with ⟨b, n⟩
    rw [hrv] at hr
    unfold download_with_ffmpeg
    simp only [hd, Bool.false_eq_true, if_false, hc, he, if_true, hrv]
    cases b <;>
      by_cases hv : validate_file_size env.outputExistsOnDisk env.outputSize MIN_FILE_SIZE = true <;>
      simp [hv, he] <;> omega
  · intro h200 m hm
    have hr : retry_with_headers env = (false, 0) := by
      unfold retry_with_headers
      simp [h200, hm]
    unfold download_with_ffmpeg
    simp [hd, hc, he, hr]

/-- Witness for C3 (amended) at the concrete DRM-manifest environment. -/
theorem retry_after_nonzero_exit_witness :
    is_drm_protected_url drmManifestEnv.m3u8Url = false ∧
    check_drm_in_content drmManifestEnv.firstRun.stderr = none ∧
    drmManifestEnv.firstRun.exitCode ≠ 0 ∧
    (download_with_ffmpeg drmManifestEnv).2 ≤ 2 :=
  ⟨by decide, by decide, by decide,
    (retry_after_nonzero_exit drmManifestEnv (by decide) (by decide) (by decide)).1⟩

/-- C5: a transcode that reports success always has a validated output: the
output file exists and its size is at least MIN_FILE_SIZE; undersized output
is reported as failure even when the encoder exits with code 0. -/
theorem transcode_ok_implies_min_size (env : TranscodeEnv)
    (h : (download_with_ffmpeg env).1 = TranscodeResult.ok) :
    env.outputExistsOnDisk = true ∧ MIN_FILE_SIZE ≤ env.outputSize := by
  have hval : validate_file_size env.outputExistsOnDisk env.outputSize MIN_FILE_SIZE = true := by
    by_cases hd : is_drm_protected_url env.m3u8Url = true
    · simp [download_with_ffmpeg, hd] at h
    · cases hc : check_drm_in_content env.firstRun.stderr with
      | some msg => simp [download_with_ffmpeg, hd, hc] at h
      | none =>
        by_cases he : env.firstRun.exitCode ≠ 0
        · by_cases hr : (retry_with_headers env).1 = true
          · by_cases hv :
                validate_file_size env.outputExistsOnDisk env.outputSize MIN_FILE_SIZE = true
            · exact hv
            · simp [download_with_ffmpeg, hd, hc, he, hr, hv] at h
          · simp [download_with_ffmpeg, hd, hc, he, hr] at h
        · by_cases hv :
              validate_file_size env.outputExistsOnDisk env.outputSize MIN_FILE_SIZE = true
          · exact hv
          · simp [download_with_ffmpeg, hd, hc, he, hv] at h
  unfold validate_file_size at hval
  simpa using hval

/-- Witness for C5 at a clean successful transcode. -/
theorem transcode_ok_implies_min_size_witness :
    (download_with_ffmpeg cleanTranscodeEnv).1 = TranscodeResult.ok ∧
    cleanTranscodeEnv.outputExistsOnDisk = true ∧
    MIN_FILE_SIZE ≤ cleanTranscodeEnv.outputSize :=
  ⟨by decide, transcode_ok_implies_min_size cleanTranscodeEnv (by decide)⟩

/-! ### Resolver claim -/

/-- C4: against an upstream that rejects authentication on every attempt,
one resolve call issues exactly 2 upstream resolve requests and attempts
exactly one token refresh (after the first rejection, never again), then
fails with the 401 error, whether or not the refresh itself succeeds. -/
theorem resolve_always_auth_rejected {A : Type} (body : String) (refreshOk : Nat → Bool) :
    resolve (A := A) (fun _ => .authRejected body) refreshOk =
      (.error (auth401Msg 2 body), ⟨2, 1⟩) := by
  cases h : refreshOk 0 <;> simp [resolve, resolveLoop, h]

/-! ### Stream locator claim -/

/-- C6 fails on the code: both candidates are classified non-protected, the
first resolves to a DRM manifest and the second to a clean manifest, yet
because non_drm_transcodings.remove shifts the list under the iterator,
candidate B is never tried and get_stream_url fails instead of returning
B's clean manifest URL. -/
theorem locator_skips_candidate_after_drm :
    classifyTranscodings [tcA, tcB] = ([tcA, tcB], []) ∧
    fetchDrmThenClean tcA.url =
      .manifest "https://cf-hls-media.sndcdn.com/drm/cenc/playlist.m3u8" ∧
    is_drm_protected_url "https://cf-hls-media.sndcdn.com/drm/cenc/playlist.m3u8" = true ∧
    fetchDrmThenClean tcB.url =
      .manifest "https://cf-hls-media.sndcdn.com/clean/playlist.m3u8" ∧
    is_drm_protected_url "https://cf-hls-media.sndcdn.com/clean/playlist.m3u8" = false ∧
    get_stream_url fetchDrmThenClean none [tcA, tcB] =
      .error "Failed to get stream URL: No working transcodings found" :=
  ⟨by decide, rfl, by decide, rfl, by decide, rfl⟩

/-! ### Metadata claims -/

/-- C8 counterexample: the genre frame stores only genre.split()[0], so a
two-word genre does not round-trip: the tag parses back as Hip, not the
supplied Hip Hop (all other fields and the sniffed JPEG MIME round-trip). -/
theorem metadata_genre_truncated :
    add_metadata_to_mp3 emptyMp3Tags "Song" "Artist" (some "Album") (some 5) (some "Hip Hop")
        (some [0xFF, 0xD8, 0x00]) =
      .ok ⟨some "Song", some "Artist", some "Album", some "5", some "Hip",
        some ("image/jpeg", [0xFF, 0xD8, 0x00])⟩ ∧
    (some "Hip" : Option String) ≠ some "Hip Hop" :=
  ⟨rfl, by decide⟩

/-- C8 (amended): a tagged buffer, when its frames are parsed back, yields
exactly the supplied title, artist, album and track number, the first
whitespace-separated token of the supplied genre, and the embedded cover
image with a MIME type inferred from its binary signature (PNG, GIF, JPEG
magic bytes; JPEG as default). -/
theorem metadata_round_trip (tags : Mp3Tags) (title artist album genre : String)
    (n : Nat) (cover : List Nat) (tok : String)
    (ha : album ≠ "") (hn : n ≠ 0) (hg : firstGenreToken genre = some tok)
    (hc : cover ≠ []) :
    add_metadata_to_mp3 tags title artist (some album) (some n) (some genre) (some cover) =
      .ok { tags with
        tit2 := some title
        tpe1 := some artist
        talb := some album
        trck := some (toString n)
        tcon := some tok
        apic := some (detect_image_mime cover, cover) } := by
  have hgne : genre ≠ "" := by
    intro hempty
    rw [hempty] at hg
    rw [show firstGenreToken "" = none from rfl] at hg
    exact Option.noConfusion hg
  unfold add_metadata_to_mp3
  simp [ha, hn, hgne, hg, hc, add_cover_art]

/-- Witness for C8 (amended) with a PNG cover and a two-word genre. -/
theorem metadata_round_trip_witness :
    ("Album" : String) ≠ "" ∧ (5 : Nat) ≠ 0 ∧
    firstGenreToken "Hip Hop" = some "Hip" ∧
    ([0x89, 0x50, 0x4E, 0x47, 0x00] : List Nat) ≠ [] ∧
    add_metadata_to_mp3 emptyMp3Tags "Song" "Artist" (some "Album") (some 5) (some "Hip Hop")
        (some [0x89, 0x50, 0x4E, 0x47, 0x00]) =
      .ok { emptyMp3Tags with
        tit2 := some "Song"
        tpe1 := some "Artist"
        talb := some "Album"
        trck := some (toString 5)
        tcon := some "Hip"
        apic := some (detect_image_mime [0x89, 0x50, 0x4E, 0x47, 0x00],
          [0x89, 0x50, 0x4E, 0x47, 0x00]) } :=
  ⟨by decide, by decide, by decide, by decide,
    metadata_round_trip emptyMp3Tags "Song" "Artist" "Album" "Hip Hop" 5
      [0x89, 0x50, 0x4E, 0x47, 0x00] "Hip" (by decide) (by decide) (by decide) (by decide)⟩

/-! ### Temporary-file hygiene claim -/

/-- C9: the per-item temporary output file of _download_track_to_memory is
gone on every exit path (success, skip and exception), for every combination
of downstream outcomes, and the backing temporary archive file of
_stream_playlist_zip is removed on both the success and the error exit. -/
theorem temp_files_always_removed :
    (∀ env : AssembleEnv, (download_track_to_memory env).2 = false) ∧
    (∀ events : List (Option (Nat × Nat)), (stream_playlist_zip_cleanup events).2 = false) := by
  constructor
  · intro env
    rcases env with ⟨tid, turl, sok, sdrm, f, r, am, mr⟩
    cases tid <;> cases turl <;> cases sok <;> cases sdrm <;> cases f <;> cases r <;>
      cases am <;> cases mr <;> rfl
  · intro events
    rfl

/-! ### Format guard claim -/

/-- C10: for every requested format other than mp3, both download_track and
download_playlist fail immediately with the ValueError Only MP3 format is
supported and perform zero upstream operations. -/
theorem non_mp3_format_rejected (format : String) (h : format ≠ "mp3")
    (envT : TrackDlEnv) (envP : PlaylistDlEnv) :
    download_track format envT = (.error (.valueError "Only MP3 format is supported"), 0) ∧
    download_playlist format envP = (.error (.valueError "Only MP3 format is supported"), 0) := by
  constructor <;> simp [download_track, download_playlist, h]

/-- Witness for C10 at format wav. -/
theorem non_mp3_format_rejected_witness :
    ("wav" : String) ≠ "mp3" ∧
    download_track "wav" ⟨.ok (), .ok "m"⟩ =
      (.error (.valueError "Only MP3 format is supported"), 0) :=
  ⟨by decide,
    (non_mp3_format_rejected "wav" (by decide) ⟨.ok (), .ok "m"⟩ ⟨.ok (), .ok (), 1⟩).1⟩

end FreeSound
